import Mathlib

/-!
Verification development for the `Export_Microsoft_Todo.py` exporter.

Strings are modelled as `List Char`.  Each definition is a shallow embedding of
the corresponding Python function or module-level code; the source line numbers
are given in the doc comments.  Regular-expression substitutions are embedded
as explicit scanning functions that follow Python `re.sub` semantics
(leftmost non-overlapping matches, greedy quantifiers with backtracking,
`re.MULTILINE` anchors) for the concrete patterns used by the program.
-/

/-- Python whitespace (the set matched by `\s` in `re` patterns over `str`,
which coincides with `str.isspace` / `str.strip`). -/
def pyWs (c : Char) : Bool :=
  c == ' ' || c == '\t' || c == '\n' || c == '\r' || c == '\x0b' || c == '\x0c' ||
  c == '\x1c' || c == '\x1d' || c == '\x1e' || c == '\x1f' || c == '\x85' || c == '\xa0' ||
  c == ' ' || c == ' ' || c == ' ' || c == ' ' || c == ' ' ||
  c == ' ' || c == ' ' || c == ' ' || c == ' ' || c == ' ' ||
  c == ' ' || c == ' ' || c == ' ' || c == ' ' || c == ' ' ||
  c == ' ' || c == '　'

/-- Python `str.strip()`: drop leading whitespace.  -/
def lstripWs (l : List Char) : List Char := l.dropWhile pyWs

/-- Python `str.strip()`: drop trailing whitespace. -/
def rstripWs (l : List Char) : List Char := (l.reverse.dropWhile pyWs).reverse

/-- Python `str.strip()` (both ends). -/
def pyStrip (l : List Char) : List Char := rstripWs (lstripWs l)

/-- Length of the maximal run of `\s` characters at the head of the list
(the greedy `\s*` of the patterns in `clean_markdown`). -/
def wsRunLen (l : List Char) : Nat := (l.takeWhile pyWs).length

/-- Index of the last `'\n'` in the list, if any.  Used to place the `$`
anchor inside the trailing `\s*` run of an anchored pattern (with
`re.MULTILINE`, `$` matches just before a `'\n'` or at the end). -/
def lastNlPos : List Char → Option Nat
  | [] => none
  | c :: rest =>
    match lastNlPos rest with
    | some k => some (k + 1)
    | none => if c == '\n' then some 0 else none

/-- The alternation `(\*\*|__)` of `re.sub(r'^\s*(\*\*|__)\s*$', ...)`
(Export_Microsoft_Todo.py line 49): returns the match length, 0 = no match. -/
def altStarsOrDunder : List Char → Nat
  | '*' :: '*' :: _ => 2
  | '_' :: '_' :: _ => 2
  | _ => 0

/-- The alternation `(\*\*|_)` of `re.sub(r'^\s*(\*\*|_)\s*$', ...)`
(line 50): returns the match length, 0 = no match. -/
def altStarsOrUnder : List Char → Nat
  | '*' :: '*' :: _ => 2
  | '_' :: _ => 1
  | _ => 0

/-- Length of the maximal run of `'_'` at the head of the list. -/
def underRunLen (l : List Char) : Nat := (l.takeWhile (fun c => c == '_')).length

/-- The sub-pattern `_{2,}` of `re.sub(r'^\s*_{2,}\s*$', ...)` (line 52):
greedy, so it consumes the whole underscore run; 0 = no match. -/
def altUnders : List Char → Nat := fun l =>
  let u := underRunLen l
  if u ≥ 2 then u else 0

/-- Attempt to match `^\s*X\s*$` (with `re.MULTILINE`) at the head of `l`,
where `l` is the suffix of the subject starting at a line start and `X` is one
of the alternations above.  Returns the length of the matched span (the `$`
consumes nothing), or 0 when there is no match.  The leading `\s*` is forced
to the whole whitespace run (the `X` alternatives start with non-whitespace
characters), and the trailing `\s*` is greedy: `$` matches at end of input
after the whole run, or else before the last `'\n'` inside the run. -/
def tryAnchoredMatch (X : List Char → Nat) (l : List Char) : Nat :=
  let m := wsRunLen l
  let lx := X (l.drop m)
  if lx = 0 then 0
  else
    let rest := l.drop (m + lx)
    let m2 := wsRunLen rest
    if m2 = rest.length then m + lx + m2
    else
      match lastNlPos (rest.take m2) with
      | some t => m + lx + t
      | none => 0

/-- Scanning loop of `re.sub(pattern, '', content, flags=re.MULTILINE)` for an
anchored pattern `^\s*X\s*$`: `atStart` records whether the current position is
a line start (position 0, or just after a `'\n'` — including a `'\n'` that was
the last character of a deleted match).  The `fuel` argument only bounds the
recursion; it never runs out when the function is called with
`fuel = length of the list`, because each step consumes at least one
character. -/
def subAnchoredGo (X : List Char → Nat) : Nat → Bool → List Char → List Char
  | _, _, [] => []
  | 0, _, l => l
  | fuel + 1, atStart, c :: rest =>
    if atStart then
      match tryAnchoredMatch X (c :: rest) with
      | 0 => c :: subAnchoredGo X fuel (c == '\n') rest
      | n + 1 =>
        subAnchoredGo X fuel ((c :: rest).get? n == some '\n') ((c :: rest).drop (n + 1))
    else c :: subAnchoredGo X fuel (c == '\n') rest

/-- `re.sub(r'^\s*X\s*$', '', content, flags=re.MULTILINE)`. -/
def subAnchored (X : List Char → Nat) (s : List Char) : List Char :=
  subAnchoredGo X s.length true s

/-- Helper for `re.sub(r'\n{3,}', '\n\n', content)` (line 54): emit a pending
run of `pending` newlines, collapsing it to two if it has length at least 3. -/
def emitNlRun (pending : Nat) (tail : List Char) : List Char :=
  List.replicate (if pending ≥ 3 then 2 else pending) '\n' ++ tail

/-- Scanning loop for `re.sub(r'\n{3,}', '\n\n', content)`: maximal runs of
newlines of length ≥ 3 are replaced by exactly two. -/
def collapseNlGo (pending : Nat) : List Char → List Char
  | [] => emitNlRun pending []
  | c :: rest =>
    if c == '\n' then collapseNlGo (pending + 1) rest
    else emitNlRun pending (c :: collapseNlGo 0 rest)

/-- `re.sub(r'\n{3,}', '\n\n', content)` (line 54). -/
def collapseNl (s : List Char) : List Char := collapseNlGo 0 s

/-- Split on `'\n'` (the line structure used by `re.MULTILINE`).  Always
returns at least one (possibly empty) line; no line contains `'\n'`. -/
def linesOf : List Char → List (List Char)
  | [] => [[]]
  | c :: rest =>
    let ls := linesOf rest
    if c == '\n' then [] :: ls
    else
      match ls with
      | [] => [[c]]
      | l :: t => (c :: l) :: t

/-- Inverse of `linesOf`: join lines with `'\n'`. -/
def joinLines : List (List Char) → List Char
  | [] => []
  | [l] => l
  | l :: ls => l ++ '\n' :: joinLines ls

/-- Remove the trailing run of `' '` characters from one line (the per-line
effect of `re.sub(r' +$', '', content, flags=re.MULTILINE)`: only spaces, not
tabs, and the greedy run must end at `$`). -/
def dropTrailingSpaces (line : List Char) : List Char :=
  (line.reverse.dropWhile (fun c => c == ' ')).reverse

/-- `re.sub(r' +$', '', content, flags=re.MULTILINE)` (line 56): since `$`
matches only before `'\n'` or at the end, a match is exactly a maximal run of
spaces at the end of a line. -/
def subTrailingSpaces (s : List Char) : List Char :=
  joinLines ((linesOf s).map dropTrailingSpaces)

/-- `clean_markdown` (Export_Microsoft_Todo.py lines 44-57): the five cleanup
steps, in the order the source applies them. -/
def clean_markdown (content : List Char) : List Char :=
  let c1 := subAnchored altStarsOrDunder content
  let c2 := subAnchored altStarsOrUnder c1
  let c3 := subAnchored altUnders c2
  let c4 := collapseNl c3
  let c5 := subTrailingSpaces c4
  pyStrip c5

/-- The character class `[<>:"/\\|?*]` of `sanitize_filename` (line 61). -/
def isInvalidFilenameChar (c : Char) : Bool :=
  c == '<' || c == '>' || c == ':' || c == '\"' || c == '/' || c == '\\' ||
  c == '|' || c == '?' || c == '*'

/-- `sanitize_filename` (lines 59-61): `re.sub(r'[<>:"/\\|?*]', '_', filename)`,
replacing each occurrence of an invalid character by `'_'`. -/
def sanitize_filename : List Char → List Char
  | [] => []
  | c :: rest => (if isInvalidFilenameChar c then '_' else c) :: sanitize_filename rest

/-- `content.all pyWs`: the string is empty or whitespace-only. -/
def isAllWs (l : List Char) : Bool := l.all pyWs

/-- A parsed API response body, as consumed by the program: every fetch of
lists, tasks or attachments is parsed with `response.json().get('value', [])`
(Export_Microsoft_Todo.py lines 141-142, 159-160, 194-195, 232-233, 272-273),
so the only part of the body the program looks at is the optional `value`
field.  `value? = none` models both a non-success response (whose JSON body
has no `value` key) and a value-less success body. -/
structure ApiResponse (α : Type) where
  value? : Option (List α)

/-- `response.json().get('value', [])`. -/
def getValue {α : Type} (r : ApiResponse α) : List α := r.value?.getD []

/-- A task list record: the fields the program reads (`id`, `displayName`). -/
structure TaskList where
  id : List Char
  displayName : List Char

/-- A `dueDateTime` / `reminderDateTime` record: the program reads only
`['dateTime']`. -/
structure DateTimeRecord where
  dateTime : List Char

/-- A task `body` record: `contentType` and `content` (lines 212-213,
290-291). -/
structure TaskBody where
  contentType : List Char
  content : List Char

/-- An attachment record: the fields the program reads (`id`, `name`, `size`,
`@odata.type`). -/
structure Attachment where
  id : List Char
  name : List Char
  size : Nat
  odataType : List Char

/-- A task record: the fields the program reads.  `dueDateTime`,
`reminderDateTime` and `body` are optional (`task.get(...)` truthiness
checks); `none` models an absent or falsy field. -/
structure TodoTask where
  id : List Char
  title : List Char
  status : List Char
  dueDateTime : Option DateTimeRecord
  reminderDateTime : Option DateTimeRecord
  body : Option TaskBody

/-- The response of an attachment `$value` content download: HTTP status code
and raw bytes. -/
structure ContentResponse where
  status : Nat
  content : List UInt8

/-- The remote collaborators the export loops consult, as response-valued
functions: the lists response, the per-list tasks response (keyed by list id),
the per-task attachments response (keyed by list id and task id), the
per-attachment content response (keyed by list id, task id, attachment id),
and the `html2text` converter `h.handle` (an external library, modelled as an
opaque function). -/
structure FetchEnv where
  listsResp : ApiResponse TaskList
  tasksResp : List Char → ApiResponse TodoTask
  attachResp : List Char → List Char → ApiResponse Attachment
  attachContentResp : List Char → List Char → List Char → ContentResponse
  handle : List Char → List Char

/-- ASCII case folding: `str.lower()` restricted to ASCII letters (the
program compares `content_type.lower()` with the ASCII literal `'html'`,
line 219). -/
def asciiLower (c : Char) : Char :=
  if 'A' ≤ c && c ≤ 'Z' then Char.ofNat (c.toNat + 32) else c

/-- `content_type.lower() == 'html'` (line 219). -/
def isHtmlContentType (ct : List Char) : Bool :=
  ct.map asciiLower == "html".toList

/-- Markdown body section (lines 211-224): when the task has a body, the
converted-and-cleaned content decides suppression
(`if markdown_content and markdown_content.strip():`); when not suppressed,
`### Content:` is written, followed by the cleaned markdown for an HTML body
or the raw content otherwise, then a newline. -/
def renderBodyMarkdown (handle : List Char → List Char) (body : Option TaskBody) :
    List Char :=
  match body with
  | none => []
  | some b =>
    let markdown_content := clean_markdown (handle b.content)
    if !markdown_content.isEmpty && !(pyStrip markdown_content).isEmpty then
      "### Content:".toList ++
        (if isHtmlContentType b.contentType then markdown_content else b.content) ++
        ['\n']
    else []

/-- Plain-text body section (lines 289-293): when the task has a body, the raw
content is always written verbatim (`file.write(f"  Content: {content}\n")`);
`content_type` is read but unused. -/
def renderBodyPlain (body : Option TaskBody) : List Char :=
  match body with
  | none => []
  | some b => "  Content: ".toList ++ b.content ++ ['\n']

/-- The `@odata.type` tag of a downloadable file attachment (lines 202, 280). -/
def fileAttachmentTag : List Char := "#microsoft.graph.taskFileAttachment".toList

/-- One attachment entry of the markdown export (lines 199-208): the listing
line, and — only when attachment saving is enabled and the type tag matches —
a content download; a 200 response writes `attachment_{name}` (returned as a
(filename, bytes) pair) and appends a saved-attachment note, any other status
adds nothing.  `fetch` is the attachment-content collaborator. -/
def attachmentEntryMarkdown (saveAttachments : Bool)
    (fetch : List Char → List Char → List Char → ContentResponse)
    (listId taskId : List Char) (a : Attachment) :
    List Char × List (List Char × List UInt8) :=
  let line := "- ".toList ++ a.name ++ " (Size: ".toList ++
    (Nat.repr a.size).toList ++ " bytes)\n".toList
  if saveAttachments && (a.odataType == fileAttachmentTag) then
    let resp := fetch listId taskId a.id
    if resp.status == 200 then
      (line ++ "  - Saved attachment: attachment_".toList ++ a.name ++ "\n".toList,
        [("attachment_".toList ++ a.name, resp.content)])
    else (line, [])
  else (line, [])

/-- One attachment entry of the plain-text export (lines 277-286): same logic
as the markdown variant with plain-text indentation. -/
def attachmentEntryPlain (saveAttachments : Bool)
    (fetch : List Char → List Char → List Char → ContentResponse)
    (listId taskId : List Char) (a : Attachment) :
    List Char × List (List Char × List UInt8) :=
  let line := "    - ".toList ++ a.name ++ " (Size: ".toList ++
    (Nat.repr a.size).toList ++ " bytes)\n".toList
  if saveAttachments && (a.odataType == fileAttachmentTag) then
    let resp := fetch listId taskId a.id
    if resp.status == 200 then
      (line ++ "      Saved attachment: attachment_".toList ++ a.name ++ "\n".toList,
        [("attachment_".toList ++ a.name, resp.content)])
    else (line, [])
  else (line, [])

/-- The attachments section of one task (markdown, lines 194-208): fetch the
attachments; a non-empty result produces a header plus one entry per
attachment. -/
def attachmentsSectionMarkdown (saveAttachments : Bool) (env : FetchEnv)
    (listId : List Char) (t : TodoTask) :
    List Char × List (List Char × List UInt8) :=
  let attachments := getValue (env.attachResp listId t.id)
  if attachments.isEmpty then ([], [])
  else
    let entries := attachments.map
      (attachmentEntryMarkdown saveAttachments env.attachContentResp listId t.id)
    ("### Attachments:\n".toList ++ (entries.map Prod.fst).flatten,
      (entries.map Prod.snd).flatten)

/-- The attachments section of one task (plain text, lines 272-286). -/
def attachmentsSectionPlain (saveAttachments : Bool) (env : FetchEnv)
    (listId : List Char) (t : TodoTask) :
    List Char × List (List Char × List UInt8) :=
  let attachments := getValue (env.attachResp listId t.id)
  if attachments.isEmpty then ([], [])
  else
    let entries := attachments.map
      (attachmentEntryPlain saveAttachments env.attachContentResp listId t.id)
    ("  Attachments:\n".toList ++ (entries.map Prod.fst).flatten,
      (entries.map Prod.snd).flatten)

/-- One task of the markdown export (lines 180-224): title, binary status,
optional due and reminder timestamps, attachments section, body section. -/
def renderTaskMarkdown (saveAttachments : Bool) (env : FetchEnv)
    (listId : List Char) (t : TodoTask) :
    List Char × List (List Char × List UInt8) :=
  let title := "## Task: ".toList ++ t.title ++ ['\n']
  let status := "### Status: ".toList ++
    (if t.status == "completed".toList then "Completed".toList
     else "Not Completed".toList) ++ ['\n']
  let due := match t.dueDateTime with
    | some d => "### Due: ".toList ++ d.dateTime ++ ['\n']
    | none => []
  let rem := match t.reminderDateTime with
    | some d => "### Reminder: ".toList ++ d.dateTime ++ ['\n']
    | none => []
  let atts := attachmentsSectionMarkdown saveAttachments env listId t
  let body := renderBodyMarkdown env.handle t.body
  (title ++ status ++ due ++ rem ++ atts.1 ++ body, atts.2)

/-- One task of the plain-text export (lines 258-293). -/
def renderTaskPlain (saveAttachments : Bool) (env : FetchEnv)
    (listId : List Char) (t : TodoTask) :
    List Char × List (List Char × List UInt8) :=
  let title := "  Task: ".toList ++ t.title ++ ['\n']
  let status := "  Status: ".toList ++
    (if t.status == "completed".toList then "Completed".toList
     else "Not Completed".toList) ++ ['\n']
  let due := match t.dueDateTime with
    | some d => "  Due: ".toList ++ d.dateTime ++ ['\n']
    | none => []
  let rem := match t.reminderDateTime with
    | some d => "  Reminder: ".toList ++ d.dateTime ++ ['\n']
    | none => []
  let atts := attachmentsSectionPlain saveAttachments env listId t
  let body := renderBodyPlain t.body
  (title ++ status ++ due ++ rem ++ atts.1 ++ body, atts.2)

/-- The document of one non-empty list (markdown, lines 166-224): list header,
then the rendered tasks separated by a blank line (written before every task
but the first). -/
def renderListMarkdown (saveAttachments : Bool) (env : FetchEnv)
    (tl : TaskList) (tasks : List TodoTask) :
    List Char × List (List Char × List UInt8) :=
  let rendered := tasks.map (renderTaskMarkdown saveAttachments env tl.id)
  ("# List: ".toList ++ tl.displayName ++ "\n\n\n".toList ++
     ((rendered.map Prod.fst).intersperse "\n\n".toList).flatten,
    (rendered.map Prod.snd).flatten)

/-- The document of one non-empty list (plain text, lines 244-293). -/
def renderListPlain (saveAttachments : Bool) (env : FetchEnv)
    (tl : TaskList) (tasks : List TodoTask) :
    List Char × List (List Char × List UInt8) :=
  let rendered := tasks.map (renderTaskPlain saveAttachments env tl.id)
  ("List: ".toList ++ tl.displayName ++ "\n\n\n".toList ++
     ((rendered.map Prod.fst).intersperse "\n\n".toList).flatten,
    (rendered.map Prod.snd).flatten)

/-- One iteration of the markdown export loop (lines 152-166): fetch the
list's tasks; an empty result skips the list (`continue`, no file); otherwise
the output file `{sanitized displayName}_{now}.md` is written, where `now` is
the `datetime.now().strftime("%Y%m%d_%H%M%S")` timestamp string (the
`strftime` rendering is external; it is passed in as an opaque string).
Returns `none` when skipped, otherwise `some (filename, (document, saved
attachment files))`. -/
def processListMarkdown (saveAttachments : Bool) (env : FetchEnv)
    (now : List Char) (tl : TaskList) :
    Option (List Char × (List Char × List (List Char × List UInt8))) :=
  let tasks := getValue (env.tasksResp tl.id)
  if tasks.isEmpty then none
  else
    some (sanitize_filename tl.displayName ++ "_".toList ++ now ++ ".md".toList,
      renderListMarkdown saveAttachments env tl tasks)

/-- One iteration of the plain-text export loop (lines 230-244). -/
def processListPlain (saveAttachments : Bool) (env : FetchEnv)
    (now : List Char) (tl : TaskList) :
    Option (List Char × (List Char × List (List Char × List UInt8))) :=
  let tasks := getValue (env.tasksResp tl.id)
  if tasks.isEmpty then none
  else
    some (sanitize_filename tl.displayName ++ "_".toList ++ now ++ ".txt".toList,
      renderListPlain saveAttachments env tl tasks)

/-- The whole export run over the fetched lists (markdown mode). -/
def exportRunMarkdown (saveAttachments : Bool) (env : FetchEnv) (now : List Char) :
    List (List Char × (List Char × List (List Char × List UInt8))) :=
  (getValue env.listsResp).filterMap (processListMarkdown saveAttachments env now)

/-- The whole export run over the fetched lists (plain-text mode). -/
def exportRunPlain (saveAttachments : Bool) (env : FetchEnv) (now : List Char) :
    List (List Char × (List Char × List (List Char × List UInt8))) :=
  (getValue env.listsResp).filterMap (processListPlain saveAttachments env now)


/-- Observable events of the module-level authentication sequence
(Export_Microsoft_Todo.py lines 64-134). -/
inductive AuthEvent
  | cacheRead
  | silentAttempt
  | interactiveAttempt
  | manualAttempt
  | cacheWrite
deriving DecidableEq

/-- Terminal state of the authentication sequence: a bearer token was
obtained, or `exit()` was called, or an uncaught exception was raised
(`result['access_token']` on a token-less dict, line 78). -/
inductive AuthOutcome
  | authenticated (token : List Char)
  | exited
  | crashed
deriving DecidableEq

/-- An msal result dictionary, restricted to the keys the program reads:
`access_token`, `error`, `error_description`.  `none` models an absent key
(`result.get(...)` returns `None`). -/
structure MsalResultDict where
  accessToken? : Option (List Char)
  error? : Option (List Char)
  errorDescription? : Option (List Char)
deriving DecidableEq

/-- Python truthiness of an msal result dictionary restricted to the modelled
keys (a dict is truthy iff non-empty).  On every state the program can reach
at its `if not result:` test, `access_token` is present, so the modelled
truthiness agrees with the real one there. -/
def truthyDict (d : MsalResultDict) : Bool :=
  d.accessToken?.isSome || d.error?.isSome || d.errorDescription?.isSome

/-- The collaborator inputs of the manual auth-code fallback block
(lines 101-129): the authorization URL of the initiated flow, the URL pasted
by the operator, and the result of `acquire_token_by_auth_code_flow` on the
parsed `code`/`state` parameters — `none` models an exception raised inside
the `try` block (handled at lines 124-129 by printing and exiting). -/
structure ManualFlowEnv where
  authUri : List Char
  pastedRedirectUrl : List Char
  exchangeResult? : Option MsalResultDict

/-- The identity-provider collaborators of one run: the account list
(`app.get_accounts()`), the silent result (`acquire_token_silent` returns
`None` or a result dict), the interactive result
(`acquire_token_interactive` returns a result dict), and the manual-flow
collaborators. -/
structure AuthEnv where
  accounts : List (List Char)
  silentResult? : Option MsalResultDict
  interactiveResult : MsalResultDict
  manual : ManualFlowEnv

/-- Lines 131-134: `if "access_token" not in result: ... exit()`; otherwise
the run proceeds, authenticated with the `access_token` variable set earlier
in the cascade. -/
def finalTokenCheck (t : List AuthEvent) (result : MsalResultDict)
    (accessToken : List Char) : List AuthEvent × AuthOutcome :=
  if result.accessToken?.isSome then (t, AuthOutcome.authenticated accessToken)
  else (t, AuthOutcome.exited)

/-- Lines 99-129: `save_cache(token_cache)`, then the manual auth-code
fallback guarded by `if not result:`, then the final token check.  `result`
is the value of the Python variable `result` when line 99 is reached, and
`accessToken` the value of `access_token`. -/
def afterCascade (t : List AuthEvent) (env : AuthEnv) (result : MsalResultDict)
    (accessToken : List Char) : List AuthEvent × AuthOutcome :=
  let t1 := t ++ [AuthEvent.cacheWrite]
  if truthyDict result then finalTokenCheck t1 result accessToken
  else
    let t2 := t1 ++ [AuthEvent.manualAttempt]
    match env.manual.exchangeResult? with
    | some d2 => finalTokenCheck t2 d2 accessToken
    | none => (t2, AuthOutcome.exited)

/-- The interactive acquisition stage (lines 81-87 and, identically, 90-96):
`result = app.acquire_token_interactive(SCOPES)`; a result carrying
`access_token` proceeds, otherwise the error and description are printed and
`exit()` is called. -/
def interactiveStage (t : List AuthEvent) (env : AuthEnv) :
    List AuthEvent × AuthOutcome :=
  let t2 := t ++ [AuthEvent.interactiveAttempt]
  match env.interactiveResult.accessToken? with
  | some tok => afterCascade t2 env env.interactiveResult tok
  | none => (t2, AuthOutcome.exited)

/-- The module-level authentication sequence (lines 64-134): read the cache
(line 64), list accounts (line 73); with an account, try silent acquisition
(`if result:` — `None` and an empty dict both fall through to interactive);
without one, go interactive directly; then save the cache, run the guarded
manual fallback, and check the final result.  Returns the event trace and the
outcome. -/
def authRun (env : AuthEnv) : List AuthEvent × AuthOutcome :=
  let t0 : List AuthEvent := [AuthEvent.cacheRead]
  if env.accounts.isEmpty then interactiveStage t0 env
  else
    let t1 := t0 ++ [AuthEvent.silentAttempt]
    match env.silentResult? with
    | some d =>
      if truthyDict d then
        match d.accessToken? with
        | some tok => afterCascade t1 env d tok
        | none => (t1, AuthOutcome.crashed)
      else interactiveStage t1 env
    | none => interactiveStage t1 env

/-- Whether the silent result is truthy (`if result:` at line 76). -/
def silentTruthy (env : AuthEnv) : Bool :=
  match env.silentResult? with
  | some d => truthyDict d
  | none => false

/-- Number of occurrences of an event in a trace. -/
def countEvent (e : AuthEvent) : List AuthEvent → Nat
  | [] => 0
  | x :: rest => (if x = e then 1 else 0) + countEvent e rest

/-- Whether an outcome is the authenticated terminal state. -/
def isAuthenticated : AuthOutcome → Bool
  | AuthOutcome.authenticated _ => true
  | _ => false

/-- No line of the text ends in the character `a`: there is no occurrence of
`a` immediately followed by `'\n'`, and the text does not end in `a`. -/
def noLineEndsIn (a : Char) : List Char → Bool
  | [] => true
  | [c] => !(c == a)
  | c :: d :: rest => !((c == a) && (d == '\n')) && noLineEndsIn a (d :: rest)

/-- The text contains a run of three (or more) consecutive newlines. -/
def hasTripleNl : List Char → Bool
  | '\n' :: '\n' :: '\n' :: _ => true
  | _ :: rest => hasTripleNl rest
  | [] => false

/-- Concrete fetch environment in which every fetch yields a value-less
response. -/
def emptyFetchEnv : FetchEnv where
  listsResp := ⟨none⟩
  tasksResp := fun _ => ⟨none⟩
  attachResp := fun _ _ => ⟨none⟩
  attachContentResp := fun _ _ _ => ⟨404, []⟩
  handle := fun l => l

/-- Concrete task list used by witnesses. -/
def sampleList : TaskList := ⟨"id1".toList, "Groceries".toList⟩

/-- Concrete task used by witnesses. -/
def sampleTask : TodoTask :=
  ⟨"t1".toList, "Buy milk".toList, "completed".toList, none, none, none⟩

/-- Concrete fetch environment whose tasks fetch returns one task. -/
def oneTaskFetchEnv : FetchEnv :=
  { emptyFetchEnv with tasksResp := fun _ => ⟨some [sampleTask]⟩ }

/-- Concrete timestamp string used by witnesses. -/
def sampleNow : List Char := "20251012_120000".toList

/-- Concrete attachment with the file-attachment type tag. -/
def sampleFileAttachment : Attachment :=
  ⟨"a1".toList, "photo.png".toList, 5, "#microsoft.graph.taskFileAttachment".toList⟩

/-- Concrete link attachment (reference type tag). -/
def sampleLinkAttachment : Attachment :=
  ⟨"a2".toList, "link".toList, 3, "#microsoft.graph.taskLinkAttachment".toList⟩

/-- Concrete attachment-content collaborator answering 200 with one byte. -/
def okContentFetch : List Char → List Char → List Char → ContentResponse :=
  fun _ _ _ => ⟨200, [65]⟩

/-- Concrete attachment-content collaborator answering 500. -/
def failContentFetch : List Char → List Char → List Char → ContentResponse :=
  fun _ _ _ => ⟨500, [66]⟩

/-- Concrete converter mapping everything to a single space (a body whose
conversion is whitespace-only). -/
def blankConverter : List Char → List Char := fun _ => [' ']

/-- Concrete non-HTML body with non-empty raw content. -/
def sampleTextBody : TaskBody := ⟨"text".toList, "hello".toList⟩

/-- Authentication environment with no cached account and a failing
interactive acquisition, whose manual exchange would nevertheless succeed. -/
def failingInteractiveEnv : AuthEnv where
  accounts := []
  silentResult? := none
  interactiveResult :=
    ⟨none, some "invalid_client".toList, some "client_id missing".toList⟩
  manual :=
    ⟨"https://login.example/authorize".toList,
     "http://localhost/?code=abc&state=xyz".toList,
     some ⟨some "manual-token".toList, none, none⟩⟩

/-- Authentication environment with a cached account and a successful silent
acquisition. -/
def silentHitEnv : AuthEnv where
  accounts := ["acct".toList]
  silentResult? := some ⟨some "cached-token".toList, none, none⟩
  interactiveResult := ⟨none, some "unused".toList, none⟩
  manual := ⟨[], [], none⟩

/-- The input on which `clean_markdown` violates the claimed output
invariants: the space-only line is emptied only after newline collapsing. -/
def c2Input : List Char := "a\t\n\n \n\nb".toList

/-- The input on which `clean_markdown` is not idempotent. -/
def c5Input : List Char := "a\n\n \n\nb".toList

theorem head?_dropWhile_false {α : Type} (p : α → Bool) (l : List α) (a : α)
    (h : (l.dropWhile p).head? = some a) : p a = false := by
  have hw := List.head?_dropWhile_not p l
  rw [h] at hw
  exact hw

theorem rstripWs_append (l : List Char) :
    rstripWs l ++ (l.reverse.takeWhile pyWs).reverse = l := by
  unfold rstripWs
  rw [← List.reverse_append, List.takeWhile_append_dropWhile, List.reverse_reverse]

theorem getLast?_rstripWs (l : List Char) (c : Char)
    (h : (rstripWs l).getLast? = some c) : pyWs c = false := by
  unfold rstripWs at h
  rw [List.getLast?_reverse] at h
  exact head?_dropWhile_false pyWs l.reverse c h

theorem head?_rstripWs (l : List Char) (c : Char)
    (h : (rstripWs l).head? = some c) : l.head? = some c := by
  have hd := rstripWs_append l
  cases he : rstripWs l with
  | nil => rw [he] at h; exact absurd h (by simp)
  | cons x t =>
    rw [he] at h hd
    simp only [List.head?] at h
    rw [← hd, List.cons_append]
    simpa using h

theorem head?_pyStrip (l : List Char) (c : Char)
    (h : (pyStrip l).head? = some c) : pyWs c = false := by
  unfold pyStrip at h
  have h2 := head?_rstripWs (lstripWs l) c h
  unfold lstripWs at h2
  exact head?_dropWhile_false pyWs l c h2

theorem getLast?_pyStrip (l : List Char) (c : Char)
    (h : (pyStrip l).getLast? = some c) : pyWs c = false := by
  unfold pyStrip at h
  exact getLast?_rstripWs (lstripWs l) c h

theorem lstripWs_eq_self (l : List Char)
    (h : ∀ c, l.head? = some c → pyWs c = false) : lstripWs l = l := by
  unfold lstripWs
  cases l with
  | nil => rfl
  | cons c t =>
    rw [List.dropWhile_cons]
    simp [h c rfl]

theorem rstripWs_eq_self (l : List Char)
    (h : ∀ c, l.getLast? = some c → pyWs c = false) : rstripWs l = l := by
  unfold rstripWs
  cases hr : l.reverse with
  | nil =>
    have : l = [] := by simpa using congrArg List.reverse hr
    simp [this]
  | cons c t =>
    have hh : l.getLast? = some c := by
      rw [List.getLast?_eq_head?_reverse, hr]; rfl
    rw [List.dropWhile_cons]
    simp [h c hh, ← hr]

theorem pyStrip_idem (l : List Char) : pyStrip (pyStrip l) = pyStrip l := by
  have h1 : lstripWs (pyStrip l) = pyStrip l :=
    lstripWs_eq_self _ (fun c hc => head?_pyStrip l c hc)
  show rstripWs (lstripWs (pyStrip l)) = pyStrip l
  rw [h1]
  exact rstripWs_eq_self _ (fun c hc => getLast?_pyStrip l c hc)

theorem pyStrip_clean_markdown (x : List Char) :
    pyStrip (clean_markdown x) = clean_markdown x := by
  unfold clean_markdown
  exact pyStrip_idem _

theorem head?_clean_markdown (x : List Char) (c : Char)
    (h : (clean_markdown x).head? = some c) : pyWs c = false := by
  unfold clean_markdown at h
  exact head?_pyStrip _ c h

theorem isAllWs_clean_markdown_iff (x : List Char) :
    isAllWs (clean_markdown x) = true ↔ clean_markdown x = [] := by
  constructor
  · intro h
    cases he : clean_markdown x with
    | nil => rfl
    | cons c t =>
      have hc : pyWs c = false := head?_clean_markdown x c (by rw [he]; rfl)
      rw [he] at h
      simp [isAllWs, hc] at h
  · intro h
    rw [h]
    rfl

theorem noLineEndsIn_tail (a c : Char) (t : List Char)
    (h : noLineEndsIn a (c :: t) = true) : noLineEndsIn a t = true := by
  cases t with
  | nil => rfl
  | cons d r =>
    simp only [noLineEndsIn, Bool.and_eq_true] at h
    exact h.2

theorem noLineEndsIn_dropWhile (a : Char) (p : Char → Bool) (l : List Char)
    (h : noLineEndsIn a l = true) : noLineEndsIn a (l.dropWhile p) = true := by
  induction l with
  | nil => exact h
  | cons c t ih =>
    rw [List.dropWhile_cons]
    by_cases hp : p c = true
    · simp only [hp, if_true]
      exact ih (noLineEndsIn_tail a c t h)
    · simp only [Bool.not_eq_true] at hp
      simp [hp, h]

theorem noLineEndsIn_append_left (a : Char) (p w : List Char)
    (h : noLineEndsIn a (p ++ w) = true) (hl : p.getLast? ≠ some a) :
    noLineEndsIn a p = true := by
  induction p with
  | nil => rfl
  | cons c t ih =>
    cases t with
    | nil =>
      have : c ≠ a := by
        intro hca
        exact hl (by rw [hca]; rfl)
      simp [noLineEndsIn, this]
    | cons d r =>
      have hpair : (!((c == a) && (d == '\n'))) = true := by
        have := h
        simp only [List.cons_append, noLineEndsIn, Bool.and_eq_true] at this
        exact this.1
      have hrest : noLineEndsIn a ((d :: r) ++ w) = true := by
        have := h
        simp only [List.cons_append, noLineEndsIn, Bool.and_eq_true] at this
        exact this.2
      have hl2 : (d :: r).getLast? ≠ some a := by
        rw [← List.getLast?_cons_cons (a := c)]
        exact hl
      have := ih hrest hl2
      simp only [noLineEndsIn, Bool.and_eq_true]
      exact ⟨hpair, this⟩

theorem noLineEndsIn_of_no_nl (a : Char) (l : List Char)
    (hnl : ('\n' : Char) ∉ l) (hlast : l.getLast? ≠ some a) :
    noLineEndsIn a l = true := by
  induction l with
  | nil => rfl
  | cons c t ih =>
    cases t with
    | nil =>
      have : c ≠ a := fun hca => hlast (by rw [hca]; rfl)
      simp [noLineEndsIn, this]
    | cons d r =>
      have hd : d ≠ '\n' := by
        intro hdn
        exact hnl (by rw [← hdn]; exact List.mem_cons_of_mem c (List.mem_cons_self d r))
      have hnl2 : ('\n' : Char) ∉ (d :: r) := fun hm => hnl (List.mem_cons_of_mem c hm)
      have hl2 : (d :: r).getLast? ≠ some a := by
        rw [← List.getLast?_cons_cons (a := c)]
        exact hlast
      have := ih hnl2 hl2
      simp only [noLineEndsIn, Bool.and_eq_true]
      refine ⟨?_, this⟩
      simp [fun h : d = '\n' => hd h]

theorem noLineEndsIn_append_nl (a : Char) (ha : a ≠ '\n') (l m : List Char)
    (hnl : ('\n' : Char) ∉ l) (hlast : l.getLast? ≠ some a)
    (hm : noLineEndsIn a m = true) : noLineEndsIn a (l ++ '\n' :: m) = true := by
  induction l with
  | nil =>
    cases m with
    | nil =>
      have : ('\n' : Char) ≠ a := fun h => ha h.symm
      simp [noLineEndsIn, this]
    | cons y r =>
      have : ('\n' : Char) ≠ a := fun h => ha h.symm
      simp only [List.nil_append, noLineEndsIn, Bool.and_eq_true]
      exact ⟨by simp [this], hm⟩
  | cons c t ih =>
    cases t with
    | nil =>
      have hc : c ≠ a := fun hca => hlast (by rw [hca]; rfl)
      have h0 : noLineEndsIn a ([] ++ '\n' :: m) = true := by
        apply ih <;> simp
      simp only [List.nil_append] at h0
      simp only [List.cons_append, List.nil_append, noLineEndsIn, Bool.and_eq_true]
      exact ⟨by simp [hc], h0⟩
    | cons d r =>
      have hd : d ≠ '\n' := by
        intro hdn
        exact hnl (by rw [← hdn]; exact List.mem_cons_of_mem c (List.mem_cons_self d r))
      have hnl2 : ('\n' : Char) ∉ (d :: r) := fun hmem => hnl (List.mem_cons_of_mem c hmem)
      have hl2 : (d :: r).getLast? ≠ some a := by
        rw [← List.getLast?_cons_cons (a := c)]
        exact hlast
      have := ih hnl2 hl2
      simp only [List.cons_append, noLineEndsIn, Bool.and_eq_true] at this ⊢
      refine ⟨?_, this⟩
      simp [fun h : d = '\n' => hd h]

theorem noLineEndsIn_joinLines (a : Char) (ha : a ≠ '\n') (L : List (List Char))
    (h : ∀ l ∈ L, ('\n' : Char) ∉ l ∧ l.getLast? ≠ some a) :
    noLineEndsIn a (joinLines L) = true := by
  induction L with
  | nil => rfl
  | cons l ls ih =>
    cases ls with
    | nil =>
      have hl := h l (List.mem_cons_self l [])
      show noLineEndsIn a l = true
      exact noLineEndsIn_of_no_nl a l hl.1 hl.2
    | cons l2 ls2 =>
      have hl := h l (List.mem_cons_self l _)
      have hrest : noLineEndsIn a (joinLines (l2 :: ls2)) = true :=
        ih (fun x hx => h x (List.mem_cons_of_mem l hx))
      show noLineEndsIn a (l ++ '\n' :: joinLines (l2 :: ls2)) = true
      exact noLineEndsIn_append_nl a ha l _ hl.1 hl.2 hrest

theorem linesOf_no_nl (s : List Char) : ∀ l ∈ linesOf s, ('\n' : Char) ∉ l := by
  induction s with
  | nil =>
    intro l hl
    simp only [linesOf, List.mem_singleton] at hl
    simp [hl]
  | cons c rest ih =>
    intro l hl
    simp only [linesOf] at hl
    by_cases hc : (c == '\n') = true
    · rw [if_pos hc] at hl
      rcases List.mem_cons.mp hl with h1 | h2
      · simp [h1]
      · exact ih l h2
    · rw [if_neg hc] at hl
      have hcn : c ≠ '\n' := by
        intro h
        rw [h] at hc
        exact hc rfl
      cases he : linesOf rest with
      | nil =>
        rw [he] at hl
        simp only [List.mem_singleton] at hl
        rw [hl]
        intro hm
        rcases List.mem_singleton.mp hm with h1
        exact hcn h1.symm
      | cons l0 t0 =>
        rw [he] at hl
        rcases List.mem_cons.mp hl with h1 | h2
        · rw [h1]
          intro hm
          rcases List.mem_cons.mp hm with h3 | h4
          · exact hcn h3.symm
          · exact ih l0 (by rw [he]; exact List.mem_cons_self l0 t0) h4
        · exact ih l (by rw [he]; exact List.mem_cons_of_mem l0 h2)

theorem dropTrailingSpaces_no_nl (l : List Char) (h : ('\n' : Char) ∉ l) :
    ('\n' : Char) ∉ dropTrailingSpaces l := by
  intro hm
  unfold dropTrailingSpaces at hm
  rw [List.mem_reverse] at hm
  have := (List.dropWhile_sublist (l := l.reverse) (fun c => c == ' ')).subset hm
  rw [List.mem_reverse] at this
  exact h this

theorem getLast?_dropTrailingSpaces (l : List Char) :
    (dropTrailingSpaces l).getLast? ≠ some ' ' := by
  unfold dropTrailingSpaces
  rw [List.getLast?_reverse]
  intro h
  have := head?_dropWhile_false (fun c => c == ' ') l.reverse ' ' h
  simp at this

theorem noLineEndsIn_subTrailingSpaces (s : List Char) :
    noLineEndsIn ' ' (subTrailingSpaces s) = true := by
  unfold subTrailingSpaces
  apply noLineEndsIn_joinLines ' ' (by decide)
  intro l hl
  rcases List.mem_map.mp hl with ⟨l0, hl0, rfl⟩
  exact ⟨dropTrailingSpaces_no_nl l0 (linesOf_no_nl s l0 hl0),
    getLast?_dropTrailingSpaces l0⟩

theorem noLineEndsIn_rstripWs (m : List Char)
    (h : noLineEndsIn ' ' m = true) : noLineEndsIn ' ' (rstripWs m) = true := by
  have hd := rstripWs_append m
  have hlast : (rstripWs m).getLast? ≠ some ' ' := by
    intro hl
    have := getLast?_rstripWs m ' ' hl
    simp [pyWs] at this
  exact noLineEndsIn_append_left ' ' (rstripWs m) _ (by rw [hd]; exact h) hlast

theorem noLineEndsIn_pyStrip (m : List Char)
    (h : noLineEndsIn ' ' m = true) : noLineEndsIn ' ' (pyStrip m) = true := by
  unfold pyStrip
  apply noLineEndsIn_rstripWs
  exact noLineEndsIn_dropWhile ' ' pyWs m h

theorem renderBodyMarkdown_eq (handle : List Char → List Char) (b : TaskBody) :
    renderBodyMarkdown handle (some b) =
      if isAllWs (clean_markdown (handle b.content)) then []
      else "### Content:".toList ++
        (if isHtmlContentType b.contentType then clean_markdown (handle b.content)
         else b.content) ++ ['\n'] := by
  have hmain : renderBodyMarkdown handle (some b) =
      (if !(clean_markdown (handle b.content)).isEmpty &&
          !(pyStrip (clean_markdown (handle b.content))).isEmpty then
        "### Content:".toList ++
          (if isHtmlContentType b.contentType then clean_markdown (handle b.content)
           else b.content) ++ ['\n']
      else []) := rfl
  rw [hmain, pyStrip_clean_markdown]
  cases he : clean_markdown (handle b.content) with
  | nil => simp [isAllWs]
  | cons c t =>
    have hws : pyWs c = false := head?_clean_markdown _ c (by rw [he]; rfl)
    have hAll : isAllWs (c :: t) = false := by simp [isAllWs, hws]
    simp [hAll]

/-- C3: in markdown mode, for a task with a body the Content section is
suppressed exactly when the HTML-converted-and-cleaned body is empty or
whitespace-only, and when not suppressed an HTML body is written as the
converted cleaned markup (a non-HTML body as the raw content); in plain-text
mode a Content line with the raw body content is always written, regardless
of content type and with no conversion. -/
theorem c3_body_rendering_modes (handle : List Char → List Char) (b : TaskBody) :
    renderBodyMarkdown handle (some b) =
      (if isAllWs (clean_markdown (handle b.content)) then []
       else "### Content:".toList ++
         (if isHtmlContentType b.contentType then clean_markdown (handle b.content)
          else b.content) ++ ['\n'])
    ∧ renderBodyPlain (some b) = "  Content: ".toList ++ b.content ++ ['\n'] :=
  ⟨renderBodyMarkdown_eq handle b, rfl⟩

/-- C10: in markdown mode, for a task whose body contentType is not html the
raw content is written verbatim into the Content section, yet whether the
section appears is decided by the converted-and-cleaned content — a non-HTML
body is suppressed whenever its converted-and-cleaned form is empty or
whitespace-only, even if the raw content is non-empty. -/
theorem c10_nonhtml_body_suppression (handle : List Char → List Char)
    (b : TaskBody) (hct : isHtmlContentType b.contentType = false) :
    ((renderBodyMarkdown handle (some b) = []) ↔
      isAllWs (clean_markdown (handle b.content)) = true)
    ∧ (isAllWs (clean_markdown (handle b.content)) = false →
        renderBodyMarkdown handle (some b) =
          "### Content:".toList ++ b.content ++ ['\n']) := by
  have heq := renderBodyMarkdown_eq handle b
  rw [hct, if_neg (by decide : ¬((false : Bool) = true))] at heq
  constructor
  · constructor
    · intro h
      by_contra hne
      rw [Bool.not_eq_true] at hne
      rw [heq, if_neg (by simp [hne])] at h
      simp at h
    · intro h
      rw [heq, if_pos (by simp [h])]
  · intro h
    rw [heq, if_neg (by simp [h])]

/-- C10 witness: a converter that turns the body into a single space makes a
non-HTML body with non-empty raw content produce no Content section at all. -/
theorem c10_nonhtml_body_suppression_witness :
    renderBodyMarkdown blankConverter (some sampleTextBody) = []
    ∧ sampleTextBody.content ≠ [] :=
  ⟨(c10_nonhtml_body_suppression blankConverter sampleTextBody (by decide)).1.mpr
      (by decide),
    by decide⟩

/-- C9: `sanitize_filename` output contains none of the forbidden characters;
each forbidden character is replaced by an underscore and every other
character is left unchanged (pointwise mapping, length preserved); as a
function of its input it is pure by construction. -/
theorem c9_sanitize_filename_spec (s : List Char) :
    (sanitize_filename s).all (fun c => !(isInvalidFilenameChar c)) = true
    ∧ (sanitize_filename s).length = s.length
    ∧ ∀ i : Nat, (sanitize_filename s).get? i =
        (s.get? i).map (fun c => if isInvalidFilenameChar c then '_' else c) := by
  induction s with
  | nil => exact ⟨rfl, rfl, fun i => by cases i <;> rfl⟩
  | cons c t ih =>
    refine ⟨?_, ?_, ?_⟩
    · show ((if isInvalidFilenameChar c then '_' else c) :: sanitize_filename t).all
        (fun c => !(isInvalidFilenameChar c)) = true
      rw [List.all_cons, ih.1]
      by_cases hc : isInvalidFilenameChar c = true
      · simp only [hc, if_true]
        decide
      · rw [Bool.not_eq_true] at hc
        simp [hc]
    · show (sanitize_filename t).length + 1 = t.length + 1
      rw [ih.2.1]
    · intro i
      cases i with
      | zero => rfl
      | succ j => exact ih.2.2 j

/-- C4: a non-success or value-less response is parsed as the empty sequence
(`response.json().get('value', [])`), and an affected tasks fetch makes the
exporter treat the list as having no tasks: the list is skipped (no file) in
both export variants, with no error reported (no error path exists in the
model). -/
theorem c4_api_failure_as_empty :
    (∀ (α : Type) (r : ApiResponse α), r.value? = none → getValue r = [])
    ∧ (∀ (saveAttachments : Bool) (env : FetchEnv) (now : List Char)
        (tl : TaskList), (env.tasksResp tl.id).value? = none →
        processListMarkdown saveAttachments env now tl = none
        ∧ processListPlain saveAttachments env now tl = none) := by
  constructor
  · intro α r h
    unfold getValue
    rw [h]
    rfl
  · intro saveAttachments env now tl h
    have he : getValue (env.tasksResp tl.id) = [] := by
      unfold getValue
      rw [h]
      rfl
    constructor
    · unfold processListMarkdown
      rw [he]
      rfl
    · unfold processListPlain
      rw [he]
      rfl

/-- C4 witness: in a concrete environment where every response is value-less,
the lists parse is empty and a list is skipped in both variants. -/
theorem c4_api_failure_as_empty_witness :
    getValue (emptyFetchEnv.listsResp) = []
    ∧ processListMarkdown false emptyFetchEnv sampleNow sampleList = none
    ∧ processListPlain false emptyFetchEnv sampleNow sampleList = none :=
  ⟨c4_api_failure_as_empty.1 TaskList emptyFetchEnv.listsResp rfl,
    (c4_api_failure_as_empty.2 false emptyFetchEnv sampleNow sampleList rfl).1,
    (c4_api_failure_as_empty.2 false emptyFetchEnv sampleNow sampleList rfl).2⟩

/-- C7: an output file is produced iff the fetched task sequence is non-empty
(a list with zero tasks produces no file), and the file for a non-empty list
is named `{sanitized displayName}_{timestamp}.md` in markdown mode and
`.txt` in plain mode. -/
theorem c7_file_per_nonempty_list (saveAttachments : Bool) (env : FetchEnv)
    (now : List Char) (tl : TaskList) :
    ((processListMarkdown saveAttachments env now tl = none) ↔
      getValue (env.tasksResp tl.id) = [])
    ∧ ((processListPlain saveAttachments env now tl = none) ↔
      getValue (env.tasksResp tl.id) = [])
    ∧ (getValue (env.tasksResp tl.id) ≠ [] →
        (processListMarkdown saveAttachments env now tl).map Prod.fst =
          some (sanitize_filename tl.displayName ++ "_".toList ++ now ++ ".md".toList)
        ∧ (processListPlain saveAttachments env now tl).map Prod.fst =
          some (sanitize_filename tl.displayName ++ "_".toList ++ now ++ ".txt".toList)) := by
  cases he : getValue (env.tasksResp tl.id) with
  | nil =>
    refine ⟨?_, ?_, ?_⟩
    · unfold processListMarkdown
      rw [he]
      simp
    · unfold processListPlain
      rw [he]
      simp
    · intro h
      exact absurd rfl h
  | cons t ts =>
    refine ⟨?_, ?_, ?_⟩
    · unfold processListMarkdown
      rw [he]
      simp
    · unfold processListPlain
      rw [he]
      simp
    · intro _
      constructor
      · unfold processListMarkdown
        rw [he]
        simp
      · unfold processListPlain
        rw [he]
        simp

/-- C7 witness: a list whose tasks fetch yields one task produces files named
from the sanitized display name, the timestamp, and the mode's extension. -/
theorem c7_file_per_nonempty_list_witness :
    (processListMarkdown false oneTaskFetchEnv sampleNow sampleList).map Prod.fst =
      some (sanitize_filename sampleList.displayName ++ "_".toList ++ sampleNow
        ++ ".md".toList)
    ∧ (processListPlain false oneTaskFetchEnv sampleNow sampleList).map Prod.fst =
      some (sanitize_filename sampleList.displayName ++ "_".toList ++ sampleNow
        ++ ".txt".toList) :=
  (c7_file_per_nonempty_list false oneTaskFetchEnv sampleNow sampleList).2.2
    (List.cons_ne_nil sampleTask [])

/-- C8: attachment content is fetched only when attachment saving is enabled
and the type tag equals the file-attachment tag (otherwise the rendered entry
does not depend on the content collaborator at all and no file is saved); a
status-200 download writes `attachment_{name}` and appends a saved-attachment
note; any other status silently skips the download: no file, no note. -/
theorem c8_attachment_download_policy (saveAttachments : Bool)
    (f g : List Char → List Char → List Char → ContentResponse)
    (listId taskId : List Char) (a : Attachment) :
    (saveAttachments = false ∨ a.odataType ≠ fileAttachmentTag →
      attachmentEntryMarkdown saveAttachments f listId taskId a =
        attachmentEntryMarkdown saveAttachments g listId taskId a
      ∧ attachmentEntryPlain saveAttachments f listId taskId a =
        attachmentEntryPlain saveAttachments g listId taskId a
      ∧ (attachmentEntryMarkdown saveAttachments f listId taskId a).2 = []
      ∧ (attachmentEntryPlain saveAttachments f listId taskId a).2 = [])
    ∧ (saveAttachments = true → a.odataType = fileAttachmentTag →
        (f listId taskId a.id).status = 200 →
        attachmentEntryMarkdown saveAttachments f listId taskId a =
          ("- ".toList ++ a.name ++ " (Size: ".toList ++ (Nat.repr a.size).toList ++
             " bytes)\n".toList ++ "  - Saved attachment: attachment_".toList ++
             a.name ++ "\n".toList,
           [("attachment_".toList ++ a.name, (f listId taskId a.id).content)])
        ∧ attachmentEntryPlain saveAttachments f listId taskId a =
          ("    - ".toList ++ a.name ++ " (Size: ".toList ++ (Nat.repr a.size).toList ++
             " bytes)\n".toList ++ "      Saved attachment: attachment_".toList ++
             a.name ++ "\n".toList,
           [("attachment_".toList ++ a.name, (f listId taskId a.id).content)]))
    ∧ (saveAttachments = true → a.odataType = fileAttachmentTag →
        (f listId taskId a.id).status ≠ 200 →
        attachmentEntryMarkdown saveAttachments f listId taskId a =
          ("- ".toList ++ a.name ++ " (Size: ".toList ++ (Nat.repr a.size).toList ++
             " bytes)\n".toList, [])
        ∧ attachmentEntryPlain saveAttachments f listId taskId a =
          ("    - ".toList ++ a.name ++ " (Size: ".toList ++ (Nat.repr a.size).toList ++
             " bytes)\n".toList, [])) := by
  refine ⟨?_, ?_, ?_⟩
  · intro h
    have hcond : (saveAttachments && (a.odataType == fileAttachmentTag)) = false := by
      rcases h with h | h
      · simp [h]
      · simp [beq_eq_false_iff_ne.mpr h]
    constructor
    · unfold attachmentEntryMarkdown
      rw [hcond]
      simp
    constructor
    · unfold attachmentEntryPlain
      rw [hcond]
      simp
    constructor
    · unfold attachmentEntryMarkdown
      rw [hcond]
      simp
    · unfold attachmentEntryPlain
      rw [hcond]
      simp
  · intro hs ht h200
    subst hs
    have hcond : (true && (a.odataType == fileAttachmentTag)) = true := by
      simp [ht]
    have hst : ((f listId taskId a.id).status == 200) = true := by
      simp [h200]
    constructor
    · unfold attachmentEntryMarkdown
      rw [hcond, if_pos rfl]
      simp [hst]
    · unfold attachmentEntryPlain
      rw [hcond, if_pos rfl]
      simp [hst]
  · intro hs ht hne
    subst hs
    have hcond : (true && (a.odataType == fileAttachmentTag)) = true := by
      simp [ht]
    have hst : ((f listId taskId a.id).status == 200) = false := by
      simp [hne]
    constructor
    · unfold attachmentEntryMarkdown
      rw [hcond, if_pos rfl]
      simp [hst]
    · unfold attachmentEntryPlain
      rw [hcond, if_pos rfl]
      simp [hst]

/-- C8 witness: a 200 download of a file attachment writes the file and the
note; a 500 download is skipped silently; a link attachment renders
identically under two different content collaborators. -/
theorem c8_attachment_download_policy_witness :
    attachmentEntryMarkdown true okContentFetch sampleList.id sampleTask.id
      sampleFileAttachment =
      ("- ".toList ++ sampleFileAttachment.name ++ " (Size: ".toList ++
         (Nat.repr sampleFileAttachment.size).toList ++ " bytes)\n".toList ++
         "  - Saved attachment: attachment_".toList ++ sampleFileAttachment.name ++
         "\n".toList,
       [("attachment_".toList ++ sampleFileAttachment.name,
         (okContentFetch sampleList.id sampleTask.id sampleFileAttachment.id).content)])
    ∧ attachmentEntryMarkdown true failContentFetch sampleList.id sampleTask.id
      sampleFileAttachment =
      ("- ".toList ++ sampleFileAttachment.name ++ " (Size: ".toList ++
         (Nat.repr sampleFileAttachment.size).toList ++ " bytes)\n".toList, [])
    ∧ attachmentEntryMarkdown true okContentFetch sampleList.id sampleTask.id
      sampleLinkAttachment =
      attachmentEntryMarkdown true failContentFetch sampleList.id sampleTask.id
      sampleLinkAttachment :=
  ⟨((c8_attachment_download_policy true okContentFetch failContentFetch
      sampleList.id sampleTask.id sampleFileAttachment).2.1 rfl rfl rfl).1,
    ((c8_attachment_download_policy true failContentFetch okContentFetch
      sampleList.id sampleTask.id sampleFileAttachment).2.2 rfl rfl
      (by decide)).1,
    (c8_attachment_download_policy true okContentFetch failContentFetch
      sampleList.id sampleTask.id sampleLinkAttachment).1
      (Or.inr (by decide)) |>.1⟩

/-- C2 counterexample: on the input `"a\t\n\n \n\nb"` the output of
`clean_markdown` is `"a\t\n\n\n\nb"`, which contains a run of four
consecutive newlines (the space-only line is emptied only after newline
collapsing) and a line ending in a tab (only spaces are stripped), refuting
the claimed output invariant. -/
theorem c2_clean_markdown_output_cex :
    clean_markdown c2Input = "a\t\n\n\n\nb".toList
    ∧ hasTripleNl (clean_markdown c2Input) = true
    ∧ noLineEndsIn '\t' (clean_markdown c2Input) = false
    ∧ ((!hasTripleNl (clean_markdown c2Input))
        && noLineEndsIn ' ' (clean_markdown c2Input)
        && noLineEndsIn '\t' (clean_markdown c2Input)) = false :=
  ⟨rfl, rfl, rfl, rfl⟩

/-- C2 amended: for every input, no line of the `clean_markdown` output ends
in a space character (runs of three or more newlines and trailing tabs can
remain in the output). -/
theorem c2_clean_markdown_no_trailing_space (s : List Char) :
    noLineEndsIn ' ' (clean_markdown s) = true := by
  show noLineEndsIn ' '
    (pyStrip (subTrailingSpaces (collapseNl (subAnchored altUnders
      (subAnchored altStarsOrUnder (subAnchored altStarsOrDunder s)))))) = true
  exact noLineEndsIn_pyStrip _ (noLineEndsIn_subTrailingSpaces _)

/-- C5: `clean_markdown` is not idempotent: on `"a\n\n \n\nb"` one
application yields `"a\n\n\n\nb"` (trailing-space removal re-creates a
collapsible newline run after collapsing already happened) and a second
application yields `"a\n\nb"`. -/
theorem c5_clean_markdown_not_idempotent :
    clean_markdown c5Input = "a\n\n\n\nb".toList
    ∧ clean_markdown (clean_markdown c5Input) = "a\n\nb".toList
    ∧ clean_markdown (clean_markdown c5Input) ≠ clean_markdown c5Input :=
  ⟨rfl, rfl, by decide⟩

/-- C6: the credential cache is read first (before any acquisition attempt)
and exactly once; it is written back exactly once when the run ends
authenticated — regardless of whether the silent or the interactive path
produced the token — and not at all when the run terminates on an
authentication failure. -/
theorem c6_cache_read_write_lifecycle (env : AuthEnv) :
    (authRun env).1.head? = some AuthEvent.cacheRead
    ∧ countEvent AuthEvent.cacheRead (authRun env).1 = 1
    ∧ countEvent AuthEvent.cacheWrite (authRun env).1 =
        (if isAuthenticated (authRun env).2 then 1 else 0) := by
  obtain ⟨acc, sil, inter, man⟩ := env
  obtain ⟨itok, ierr, idesc⟩ := inter
  cases acc with
  | nil => cases itok <;> exact ⟨rfl, rfl, rfl⟩
  | cons a as =>
    cases sil with
    | none => cases itok <;> exact ⟨rfl, rfl, rfl⟩
    | some d =>
      obtain ⟨dtok, derr, ddesc⟩ := d
      cases dtok with
      | some t => exact ⟨rfl, rfl, rfl⟩
      | none =>
        cases derr with
        | some e => exact ⟨rfl, rfl, rfl⟩
        | none =>
          cases ddesc with
          | some ds => exact ⟨rfl, rfl, rfl⟩
          | none => cases itok <;> exact ⟨rfl, rfl, rfl⟩

/-- C1 counterexample: with no cached account and a failing interactive
acquisition, the run exits immediately after the interactive stage; the
manual fallback stage is never entered, even though its token exchange would
have succeeded — contradicting the claim that the program enters the manual
fallback rather than aborting. -/
theorem c1_manual_fallback_unreachable_cex :
    authRun failingInteractiveEnv =
      ([AuthEvent.cacheRead, AuthEvent.interactiveAttempt], AuthOutcome.exited)
    ∧ countEvent AuthEvent.manualAttempt (authRun failingInteractiveEnv).1 = 0
    ∧ failingInteractiveEnv.manual.exchangeResult?.map
        (fun d => d.accessToken?.isSome) = some true :=
  ⟨rfl, rfl, rfl⟩

/-- C1 amended: authentication is a strict priority cascade of at most two
stages, silent then interactive — each attempted at most once per run and a
token-producing silent stage short-circuits the interactive one — but on
confirmed failure of the interactive acquisition the program prints the
provider error and terminates immediately: the manual auth-code fallback
block is unreachable (its `if not result` guard is never true), so the
manual stage is never entered on any run. -/
theorem c1_auth_cascade_amended (env : AuthEnv) :
    countEvent AuthEvent.manualAttempt (authRun env).1 = 0
    ∧ countEvent AuthEvent.silentAttempt (authRun env).1 =
        (if env.accounts.isEmpty then 0 else 1)
    ∧ countEvent AuthEvent.interactiveAttempt (authRun env).1 =
        (if env.accounts.isEmpty then 1 else if silentTruthy env then 0 else 1)
    ∧ ((env.accounts.isEmpty = true ∨ silentTruthy env = false) →
        env.interactiveResult.accessToken? = none →
        (authRun env).2 = AuthOutcome.exited
        ∧ countEvent AuthEvent.manualAttempt (authRun env).1 = 0) := by
  obtain ⟨acc, sil, inter, man⟩ := env
  obtain ⟨itok, ierr, idesc⟩ := inter
  cases acc with
  | nil =>
    cases itok with
    | some t =>
      exact ⟨rfl, rfl, rfl, fun h1 h2 => Option.noConfusion h2⟩
    | none =>
      exact ⟨rfl, rfl, rfl, fun h1 h2 => ⟨rfl, rfl⟩⟩
  | cons a as =>
    cases sil with
    | none =>
      cases itok with
      | some t =>
        exact ⟨rfl, rfl, rfl, fun h1 h2 => Option.noConfusion h2⟩
      | none =>
        exact ⟨rfl, rfl, rfl, fun h1 h2 => ⟨rfl, rfl⟩⟩
    | some d =>
      obtain ⟨dtok, derr, ddesc⟩ := d
      cases dtok with
      | some t =>
        exact ⟨rfl, rfl, rfl, fun h1 h2 => by
          rcases h1 with h | h <;> simp [silentTruthy, truthyDict] at h⟩
      | none =>
        cases derr with
        | some e =>
          exact ⟨rfl, rfl, rfl, fun h1 h2 => by
            rcases h1 with h | h <;> simp [silentTruthy, truthyDict] at h⟩
        | none =>
          cases ddesc with
          | some ds =>
            exact ⟨rfl, rfl, rfl, fun h1 h2 => by
              rcases h1 with h | h <;> simp [silentTruthy, truthyDict] at h⟩
          | none =>
            cases itok with
            | some t =>
              exact ⟨rfl, rfl, rfl, fun h1 h2 => Option.noConfusion h2⟩
            | none =>
              exact ⟨rfl, rfl, rfl, fun h1 h2 => ⟨rfl, rfl⟩⟩

/-- C1 amended witness: a failing interactive run exits with no manual stage,
and a successful silent run attempts the silent stage once and the
interactive stage not at all. -/
theorem c1_auth_cascade_amended_witness :
    (authRun failingInteractiveEnv).2 = AuthOutcome.exited
    ∧ countEvent AuthEvent.manualAttempt (authRun failingInteractiveEnv).1 = 0
    ∧ countEvent AuthEvent.silentAttempt (authRun silentHitEnv).1 = 1
    ∧ countEvent AuthEvent.interactiveAttempt (authRun silentHitEnv).1 = 0 :=
  ⟨((c1_auth_cascade_amended failingInteractiveEnv).2.2.2 (Or.inl rfl) rfl).1,
    ((c1_auth_cascade_amended failingInteractiveEnv).2.2.2 (Or.inl rfl) rfl).2,
    ((c1_auth_cascade_amended silentHitEnv).2.1).trans (by decide),
    ((c1_auth_cascade_amended silentHitEnv).2.2.1).trans (by decide)⟩
